import Mathlib

/-!
Verification of the plink peer-session and file-transfer engine.

This file gives a shallow embedding, in Lean 4, of the parts of the
plink repository (a two-party WebRTC file-transfer application) that the
specification's claims are about, and proves or refutes each claim over
that embedding.  Every definition is translated from the JavaScript
source:

* `Chunking`   — the sender chunk loop of `sendFile`
  (`src/frontend/plink/src/hooks/usePeerConnection.js`);
* `Backpressure` — `sendWithBackpressure` (same file);
* `Validation` — `validateTransfer` and the receiver finalize block
  (same file);
* `ChunkStore` — the IndexedDB service (`src/services/indexedDB.js`)
  and the pull-variant copy of `readAllChunksIndexedDB`;
* `AckWait`    — `waitForAck` and the tail of `sendFile`;
* `ConnState`  — the connection-state and channel-open handlers of
  `createPeerConnection` / `setupFileChannel` / `setupChatChannel`;
* `Rendezvous` — the backend `join-room` handler (`src/backend/server.js`);
* `PullRetry`  — `requestNextChunk` of the pull-based variant;
* `Attribution` — the binary-frame handler of `setupFileChannel`.

Byte buffers are modelled as `List Nat` (one `Nat` per byte); machine
arithmetic never overflows in the sizes involved, so plain `Nat` is the
faithful embedding of the JavaScript numbers used here.
-/

namespace Plink

/-! ## Chunking: the sender side of `sendFile` (push variant)

`sendFile` computes `totalChunks = Math.ceil(fileToSend.size / settings.chunkSize)`
and then, for `index` in `0 .. totalChunks-1`, sends
`fileToSend.slice(index*chunkSize, index*chunkSize + chunkSize)`. -/

namespace Chunking

/-- `Math.ceil(size / chunkSize)` on natural numbers, as computed by
`sendFile` (usePeerConnection.js line 532). -/
def totalChunks (size chunkSize : Nat) : Nat :=
  (size + chunkSize - 1) / chunkSize

/-- One slice of the payload: `payload.slice(i*chunkSize, i*chunkSize + chunkSize)`
(usePeerConnection.js lines 569-570). -/
def chunkAt (payload : List Nat) (chunkSize i : Nat) : List Nat :=
  (payload.drop (i * chunkSize)).take chunkSize

/-- The full sequence of payload frames produced by the send loop of
`sendFile` (usePeerConnection.js lines 565-572), in index order. -/
def sendChunks (payload : List Nat) (chunkSize : Nat) : List (List Nat) :=
  (List.range (totalChunks payload.length chunkSize)).map (chunkAt payload chunkSize)

/-- Recursive reference chunker used only to reason about `sendChunks`:
take one chunk, recurse on the rest, for a given chunk count. -/
def chunkListAux : Nat → List Nat → Nat → List (List Nat)
  | 0, _, _ => []
  | Nat.succ k, p, c => p.take c :: chunkListAux k (p.drop c) c

end Chunking

/-! ## Backpressure: `sendWithBackpressure` (push variant)

`sendWithBackpressure` (usePeerConnection.js lines 90-117) first rejects
when the channel is not open; otherwise it checks
`channel.bufferedAmount < settings.chunkSize * 16` and, if the check
passes, calls `channel.send(data)` and resolves.  If the check fails it
waits for one `bufferedamountlow` event and re-runs the same check with
the buffered amount observed then. -/

namespace Backpressure

/-- The high-water mark used by `sendWithBackpressure`
(usePeerConnection.js line 98: `const maxBuffer = settings.chunkSize * 16`). -/
def maxBuffer (chunkSize : Nat) : Nat := chunkSize * 16

/-- `sendWithBackpressure`, embedded as a function of the current
buffered amount and the (finite) sequence of buffered amounts that will
be observed at future `bufferedamountlow` events.  `some post` means the
send transmitted and `post` is the buffered byte count immediately
after `channel.send` queued the data (`bufferedAmount + dataLen`);
`none` means the send never transmitted (channel closed, or no further
drain event ever admitted it). -/
def sendWithBackpressure (chunkSize dataLen : Nat) (channelOpen : Bool) :
    Nat → List Nat → Option Nat
  | buffered, drainObs =>
    if !channelOpen then none
    else if buffered < maxBuffer chunkSize then some (buffered + dataLen)
    else
      match drainObs with
      | [] => none
      | b :: rest => sendWithBackpressure chunkSize dataLen channelOpen b rest

end Backpressure

/-! ## Receiver validation and acknowledgment (push variant)

`validateTransfer` (usePeerConnection.js lines 69-84) compares expected
versus actual size and chunk count and returns the conjunction.  The
finalize block of the file-channel message handler (lines 276-335,
IndexedDB sink, uncompressed case) reads back the chunks, throws when the
read-back count differs from the declared chunk count, assembles the
blob, calls `validateTransfer` — and then sends `transfer-complete-ack`
whenever the channel is open, without consulting the value
`validateTransfer` returned. -/

namespace Validation

/-- `validateTransfer` (usePeerConnection.js lines 69-84):
`sizeMatch && chunksMatch`. -/
def validateTransfer (expectedSize actualSize expectedChunks actualChunks : Nat) : Bool :=
  decide (expectedSize = actualSize) && decide (expectedChunks = actualChunks)

/-- Outcome of the finalize block: whether `transfer-complete-ack` was
sent, what `validateTransfer` returned (`false` for the throwing path,
where it never runs), and the thrown error if any. -/
structure FinalizeOutcome where
  ackSent : Bool
  validationPassed : Bool
  threw : Option String
  deriving DecidableEq, Repr

/-- The IndexedDB finalize path of the receiver (usePeerConnection.js
lines 276-335, uncompressed case): read back `chunksArr`, throw
`Incomplete transfer` when `chunksArr.length !== meta.chunks`, otherwise
build the blob (its size is the total byte count), call
`validateTransfer meta.size actualSize meta.chunks receivedChunks`
discarding the result, and send the ack iff the file channel is open. -/
def finalizeTransferIndexedDB (metaSize metaChunks receivedChunks : Nat)
    (chunksArr : List (List Nat)) (channelOpen : Bool) : FinalizeOutcome :=
  if chunksArr.length ≠ metaChunks then
    { ackSent := false, validationPassed := false, threw := some "Incomplete transfer" }
  else
    let actualSize := (chunksArr.map List.length).sum
    let valid := validateTransfer metaSize actualSize metaChunks receivedChunks
    { ackSent := channelOpen, validationPassed := valid, threw := none }

end Validation

/-! ## Chunk Store: the IndexedDB service

`src/services/indexedDB.js` keeps a `chunks` object store with key path
`["fileId", "index"]`.  `storeChunkIndexedDB` is a `put` (upsert) on that
key.  `readAllChunksIndexedDB` in that file walks a cursor, assigns
`chunks[value.index] = value.data` into a sparse array, and finally
returns `chunks.filter((c) => c)` — compacting the holes away.  The
pull-variant copy of `readAllChunksIndexedDB` instead allocates
`new Array(totalChunks)` and returns it with its holes. -/

namespace ChunkStore

/-- Key of the `chunks` object store: `(fileId, index)`. -/
abbrev Key := String × Nat

/-- The `chunks` object store: a finite map from keys to chunk bytes,
represented as an association list (representation order is irrelevant:
reads go through `get`). -/
abbrev Store := List (Key × List Nat)

/-- `tx.objectStore("chunks").put({ fileId, index, data })`: upsert on
the key `(fileId, index)`; the new record replaces any record with the
same key (`storeChunkIndexedDB`, indexedDB.js lines 38-46). -/
def storeChunkIndexedDB (s : Store) (fileId : String) (index : Nat)
    (data : List Nat) : Store :=
  ((fileId, index), data) :: s.filter (fun e => decide (e.1 ≠ (fileId, index)))

/-- Look up the record stored under a key. -/
def get (s : Store) (k : Key) : Option (List Nat) :=
  (s.find? (fun e => decide (e.1 = k))).map (·.2)

/-- Length of the sparse JavaScript array built by the cursor loop of
`readAllChunksIndexedDB` (indexedDB.js lines 74-84): one past the
largest index assigned for this `fileId` (0 when none is). -/
def sparseLength (s : Store) (fileId : String) : Nat :=
  s.foldr (fun e m => if e.1.1 = fileId then max (e.1.2 + 1) m else m) 0

/-- `readAllChunksIndexedDB` of `src/services/indexedDB.js` (lines
67-92): gather `chunks[index] = data` for the file into a sparse array,
then return `chunks.filter((c) => c)` — present chunks in increasing
index order, holes removed. -/
def readAllChunksIndexedDB (s : Store) (fileId : String) : List (List Nat) :=
  (List.range (sparseLength s fileId)).filterMap (fun i => get s (fileId, i))

/-- The pull-variant `readAllChunksIndexedDB` (part_005 lines 76-100):
`new Array(totalChunks)` filled at each stored index `0 ≤ index <
totalChunks` of the file; missing indices stay `undefined` (here
`none`). -/
def readAllChunksIndexedDBPull (s : Store) (fileId : String)
    (totalChunks : Nat) : List (Option (List Nat)) :=
  (List.range totalChunks).map (fun i => get s (fileId, i))

end ChunkStore

/-! ## Sender acknowledgment wait: `waitForAck` and the tail of `sendFile`

`waitForAck` (usePeerConnection.js lines 54-64) resolves when the
`transfer-complete-ack` control frame for the file id arrives, and
rejects with `ACK timeout` after `ACK_TIMEOUT_MS` otherwise.  `sendFile`
sends the metadata frame, loops over the chunks, then `await
waitForAck(fileId)`; the `Transfer completed` message is posted only
after that await resolves, and the catch block posts `Failed to send
file` instead (lines 584-618). -/

namespace AckWait

/-- Timeout of `waitForAck` (usePeerConnection.js line 54). -/
def ACK_TIMEOUT_MS : Nat := 45000

/-- Observable events of one `sendFile` run, in program order. -/
inductive SenderEvent where
  | metadataSent
  | chunkSent (index : Nat)
  | ackReceived
  | reportedCompleted
  | reportedFailed
  deriving DecidableEq, Repr

/-- The ordered event trace of `sendFile` for a transfer of
`totalChunks` chunks, given whether the `transfer-complete-ack` for the
transfer id arrived within `ACK_TIMEOUT_MS` (the channel staying open
throughout): metadata, all chunks in index order, then either the ack
followed by the completion report, or the failure report from the catch
block after `waitForAck` rejected. -/
def sendFileTrace (totalChunks : Nat) (ackArrived : Bool) : List SenderEvent :=
  SenderEvent.metadataSent ::
    ((List.range totalChunks).map SenderEvent.chunkSent ++
      (if ackArrived then [SenderEvent.ackReceived, SenderEvent.reportedCompleted]
       else [SenderEvent.reportedFailed]))

end AckWait

/-! ## Connection state exposed to the application

`createPeerConnection` (usePeerConnection.js lines 390-474) installs
`pc.onconnectionstatechange`: on `connected` it sets
`peerConnected := true` and clears the error; on
`disconnected`/`failed`/`closed` it clears `peerConnected` and both
channel-ready flags.  `setupChatChannel`/`setupFileChannel` set the
per-channel ready flags on their `open`/`close` events.  The action
guards: `sendMessage` returns early unless the chat channel is ready
(line 786), and the pull-variant drop handler requires `peerConnected`
and the file-channel ready flag (part_005 line 1523). -/

namespace ConnState

/-- The connection-related state the hook exposes to the UI. -/
structure UIConn where
  peerConnected : Bool
  chatReady : Bool
  fileReady : Bool
  connectionState : String
  errorMsg : Option String
  deriving DecidableEq, Repr

/-- Events handled by the hook: a raw-transport connection-state change,
and the open/close events of the two sub-channels. -/
inductive ConnEvent where
  | stateChange (s : String)
  | chatOpen
  | chatClose
  | fileOpen
  | fileClose
  deriving DecidableEq, Repr

/-- The event handlers of `createPeerConnection` (lines 414-431),
`setupChatChannel` (lines 366-381) and `setupFileChannel` (lines
129-141), as one transition function. -/
def onConnEvent (st : UIConn) (e : ConnEvent) : UIConn :=
  match e with
  | .stateChange s =>
      let st := { st with connectionState := s }
      if s = "connected" then
        { st with peerConnected := true, errorMsg := none }
      else if s = "disconnected" ∨ s = "failed" ∨ s = "closed" then
        let st := { st with peerConnected := false, chatReady := false, fileReady := false }
        if s ≠ "closed" then { st with errorMsg := some "Connection lost" } else st
      else st
  | .chatOpen => { st with chatReady := true }
  | .chatClose => { st with chatReady := false }
  | .fileOpen => { st with fileReady := true }
  | .fileClose => { st with fileReady := false }

/-- Initial state of the hook (all flags false, `connectionState`
"idle"). -/
def initConn : UIConn :=
  { peerConnected := false, chatReady := false, fileReady := false
    connectionState := "idle", errorMsg := none }

/-- Guard of `sendMessage` (usePeerConnection.js line 786): the send is
a no-op unless the input is non-blank and the chat channel is ready.
`inputBlank` is whether `messageInput.trim()` is empty. -/
def sendMessageAllowed (st : UIConn) (inputBlank : Bool) : Bool :=
  !inputBlank && st.chatReady

/-- Guard of the pull-variant drop handler (part_005 line 1523): files
are sent only when the peer is connected, the file channel ready, and no
zipping is in progress. -/
def dropSendAllowed (st : UIConn) (isZipping : Bool) : Bool :=
  st.peerConnected && st.fileReady && !isZipping

end ConnState

/-! ## Rendezvous Coordinator: the backend `join-room` handler

`src/backend/server.js` (lines 80-198).  The handler: rejects an empty
room id; hashes the provided password; removes the socket from its
previous room (deleting that room when it empties); creates the target
room with the provided hash when absent; rejects on hash mismatch;
answers `joined-room` (without a position) when the socket is already
listed in the room; answers `room-full` when the room has 2 users;
otherwise appends the socket and emits the seat events. -/

namespace Rendezvous

/-- A room: ordered member list plus the stored password hash
(server.js lines 22-32). -/
structure Room where
  users : List String
  passwordHash : Option String
  deriving DecidableEq, Repr

/-- The `rooms` map, as an association list from room id to room. -/
abbrev Rooms := List (String × Room)

/-- Messages the handler emits to sockets (server.js lines 141-192).
`joinedRoom` carries the seat position when the handler includes one
(the already-in-room branch at line 148 emits it without a position). -/
inductive Emit where
  | joinError (dst msg : String)
  | joinedRoom (dst room : String) (position : Option Nat)
  | waitingForPeer (dst : String)
  | userConnected (dst peer : String)
  | roomFull (dst : String)
  deriving DecidableEq, Repr

/-- `hashPassword` (server.js lines 37-44): `null` for a falsy password,
otherwise the salted SHA-256 digest.  The digest is modelled by the
injective function appending the static salt; only equality of hashes is
ever consulted. -/
def hashPassword (password : String) : Option String :=
  if password = "" then none else some (password ++ "plink-static-salt")

/-- `rooms.get(id)`. -/
def getRoom (rs : Rooms) (id : String) : Option Room :=
  (rs.find? (fun e => decide (e.1 = id))).map (·.2)

/-- `rooms.set(id, r)`: replace in place when present, append when
absent. -/
def setRoom (rs : Rooms) (id : String) (r : Room) : Rooms :=
  if rs.any (fun e => decide (e.1 = id)) then
    rs.map (fun e => if e.1 = id then (id, r) else e)
  else rs ++ [(id, r)]

/-- `rooms.delete(id)`. -/
def delRoom (rs : Rooms) (id : String) : Rooms :=
  rs.filter (fun e => decide (e.1 ≠ id))

/-- Result of one `join-room` message: the updated room table, the
socket's `currentRoom` field afterwards, and the emitted messages. -/
structure JoinResult where
  rooms : Rooms
  currentRoom : Option String
  emits : List Emit
  deriving DecidableEq, Repr

/-- The previous-room removal step (server.js lines 99-118): splice the
socket out of `socket.currentRoom` and delete that room when it is
empty. -/
def leavePreviousRoom (rs : Rooms) (sockId : String)
    (currentRoom : Option String) : Rooms :=
  match currentRoom with
  | none => rs
  | some prev =>
      match getRoom rs prev with
      | none => rs
      | some prevRoom =>
          let users := prevRoom.users.erase sockId
          if users.length = 0 then delRoom rs prev
          else setRoom rs prev { prevRoom with users := users }

/-- The `join-room` handler (server.js lines 80-198). -/
def handleJoinRoom (rs : Rooms) (sockId : String) (currentRoom : Option String)
    (roomId : String) (password : String) : JoinResult :=
  if roomId = "" then
    { rooms := rs, currentRoom := currentRoom
      emits := [.joinError sockId "Invalid room name"] }
  else
    let providedHash := hashPassword password
    let rs := leavePreviousRoom rs sockId currentRoom
    let rs := if (getRoom rs roomId).isSome then rs
              else setRoom rs roomId { users := [], passwordHash := providedHash }
    match getRoom rs roomId with
    | none => { rooms := rs, currentRoom := currentRoom, emits := [] }
    | some room =>
        if room.passwordHash ≠ providedHash then
          { rooms := rs, currentRoom := currentRoom
            emits := [.joinError sockId "Invalid password."] }
        else if sockId ∈ room.users then
          { rooms := rs, currentRoom := currentRoom
            emits := [.joinedRoom sockId roomId none] }
        else if 2 ≤ room.users.length then
          { rooms := rs, currentRoom := currentRoom, emits := [.roomFull sockId] }
        else
          let users := room.users ++ [sockId]
          let rs := setRoom rs roomId { room with users := users }
          match users with
          | [u1] =>
              { rooms := rs, currentRoom := some roomId
                emits := [.waitingForPeer u1, .joinedRoom u1 roomId (some 1)] }
          | [u1, u2] =>
              { rooms := rs, currentRoom := some roomId
                emits := [.userConnected u1 u2, .joinedRoom u1 roomId (some 1),
                          .joinedRoom u2 roomId (some 2)] }
          | _ => { rooms := rs, currentRoom := some roomId, emits := [] }

end Rendezvous

/-! ## Pull-variant chunk-request retry: `requestNextChunk`

`requestNextChunk` (part_005 lines 475-537) sends one `request-chunk`
frame, declares `let retries = 0`, and calls `scheduleRetry`, which arms
a timer of `CHUNK_REQUEST_TIMEOUT` ms and then stores
`{ timeoutId, retries }` under the request key.  When the timer fires
and the entry is still pending: if `entry.retries >= CHUNK_REQUEST_MAX_RETRIES`
the entry is dropped and an error is surfaced via `setError`; otherwise
`entry.retries++` increments the stored object, the same request is
re-sent, and `scheduleRetry()` re-arms — whose final
`pendingChunkRequestsRef.current.set(key, { timeoutId, retries })`
replaces the entry with a fresh object built from the closure variable
`retries`, which is never reassigned and stays 0, discarding the
increment.  Receiving the chunk clears the entry (lines 762-767). -/

namespace PullRetry

/-- part_005 line 34. -/
def CHUNK_REQUEST_TIMEOUT : Nat := 3000

/-- part_005 line 35. -/
def CHUNK_REQUEST_MAX_RETRIES : Nat := 4

/-- State of one outstanding chunk request: the pending entry (retry
counter) if still tracked, the number of `request-chunk` re-sends so
far, and whether the give-up error has been surfaced to the user. -/
structure RetryState where
  pending : Option Nat
  resends : Nat
  errored : Bool
  deriving DecidableEq, Repr

/-- State right after the initial `request-chunk` send of
`requestNextChunk`: entry `{ retries: 0 }`, no re-send yet, no error. -/
def initialRequest : RetryState :=
  { pending := some 0, resends := 0, errored := false }

/-- One firing of the retry timer with no response received
(part_005 lines 508-532).  The give-up branch reads the stored counter;
the re-send branch increments the stored object (`entry.retries++`) but
the `scheduleRetry()` it then calls ends with
`set(key, { timeoutId, retries })`, replacing the entry with a fresh
object whose `retries` is the closure variable, still 0 — so the
re-armed entry carries counter 0, not the increment. -/
def timerFire (st : RetryState) : RetryState :=
  match st.pending with
  | none => st
  | some retries =>
      if CHUNK_REQUEST_MAX_RETRIES ≤ retries then
        { st with pending := none, errored := true }
      else
        { st with pending := some 0, resends := st.resends + 1 }

/-- The retry state after `n` consecutive timer firings during which the
requested chunk never arrives. -/
def runTimerFires : Nat → RetryState
  | 0 => initialRequest
  | n + 1 => timerFire (runTimerFires n)

end PullRetry

/-! ## Binary-frame attribution on the receiver

In both the push variant (usePeerConnection.js lines 203-219) and the
pull variant (part_005 lines 732-802), a binary frame on the file
channel is attributed with `const fileId = Object.keys(fileMetaRef.current)[0]`
— the first key of the metadata map — and written to that transfer's
sink at that transfer's running counter index.  JavaScript objects with
non-index string keys enumerate in insertion order, so the metadata map
is modelled as an insertion-ordered association list. -/

namespace Attribution

/-- The `file-metadata` control frame payload (the fields the receive
path consults; the file id is kept as the map key). -/
structure FileMeta where
  name : String
  size : Nat
  chunks : Nat
  deriving DecidableEq, Repr

/-- Receiver state for inbound transfers: the metadata map
(`fileMetaRef`, insertion ordered), the per-transfer received-chunk
counters (`receivedCountRef`), and the chunk store. -/
structure RecvState where
  fileMeta : List (String × FileMeta)
  receivedCount : List (String × Nat)
  store : ChunkStore.Store
  deriving Repr

/-- `obj[k] = v` on a JavaScript object with string keys: overwrite in
place when the key exists, append otherwise. -/
def upsertOrdered (l : List (String × Nat)) (k : String) (v : Nat) :
    List (String × Nat) :=
  if l.any (fun e => decide (e.1 = k)) then
    l.map (fun e => if e.1 = k then (k, v) else e)
  else l ++ [(k, v)]

/-- Counter lookup, 0 when absent. -/
def lookupCount (l : List (String × Nat)) (k : String) : Nat :=
  ((l.find? (fun e => decide (e.1 = k))).map (·.2)).getD 0

/-- The `file-metadata` branch of the receive handler
(usePeerConnection.js lines 151-191): record the metadata under its file
id and reset the received counter. -/
def announceMetadata (st : RecvState) (fileId : String) (m : FileMeta) :
    RecvState :=
  { st with
    fileMeta :=
      if st.fileMeta.any (fun e => decide (e.1 = fileId)) then
        st.fileMeta.map (fun e => if e.1 = fileId then (fileId, m) else e)
      else st.fileMeta ++ [(fileId, m)]
    receivedCount := upsertOrdered st.receivedCount fileId 0 }

/-- The binary branch of the receive handler (usePeerConnection.js lines
203-219, IndexedDB sink): attribute the frame to
`Object.keys(fileMetaRef.current)[0]`, use that transfer's running
counter as the chunk index, store the bytes under `(fileId, index)`, and
bump the counter.  Returns the updated state and the `(fileId, index)`
the frame was written to (`none` when no transfer is in flight and the
frame is dropped). -/
def handleBinaryFrame (st : RecvState) (buf : List Nat) :
    RecvState × Option (String × Nat) :=
  match st.fileMeta.head? with
  | none => (st, none)
  | some (fileId, _) =>
      let index := lookupCount st.receivedCount fileId
      ({ st with
          receivedCount := upsertOrdered st.receivedCount fileId (index + 1)
          store := ChunkStore.storeChunkIndexedDB st.store fileId index buf },
        some (fileId, index))

/-- Process a sequence of binary frames, collecting the write targets. -/
def handleBinaryFrames (st : RecvState) :
    List (List Nat) → RecvState × List (String × Nat)
  | [] => (st, [])
  | buf :: rest =>
      match handleBinaryFrame st buf with
      | (st1, none) =>
          let (st2, ws) := handleBinaryFrames st1 rest
          (st2, ws)
      | (st1, some w) =>
          let (st2, ws) := handleBinaryFrames st1 rest
          (st2, w :: ws)

/-- The receiver state before any transfer was announced. -/
def initialRecvState : RecvState :=
  { fileMeta := [], receivedCount := [], store := [] }

end Attribution

/-! ## Scenario definitions used by the theorems below -/

namespace Rendezvous

/-- The first join of the duplicate-join scenarios: socket `A` joins
room `r` with password `p` on an empty server. -/
def soloJoin (A r p : String) : JoinResult :=
  handleJoinRoom [] A none r p

/-- Socket `A`, alone in room `r`, sends `join-room` for `r` again. -/
def soloDupJoin (A r p : String) : JoinResult :=
  handleJoinRoom (soloJoin A r p).rooms A (soloJoin A r p).currentRoom r p

/-- Socket `B` joins room `r` after `A` did, filling the room. -/
def pairJoin (A B r p : String) : JoinResult :=
  handleJoinRoom (soloJoin A r p).rooms B none r p

/-- Socket `A`, seated first in the now-full room `r`, sends `join-room`
for `r` again. -/
def pairDupJoin (A B r p : String) : JoinResult :=
  handleJoinRoom (pairJoin A B r p).rooms A (some r) r p

end Rendezvous

/-!
# Theorems

Helper lemmas about the embedded definitions, followed by one theorem
per claim of the specification (with counterexamples and witnesses where
applicable).
-/

namespace Chunking

theorem chunkAt_succ (p : List Nat) (c i : Nat) :
    chunkAt p c (i + 1) = chunkAt (p.drop c) c i := by
  simp [chunkAt, List.drop_drop, Nat.succ_mul, Nat.add_comm]

theorem range_map_chunkAt (k : Nat) :
    ∀ p : List Nat, ∀ c : Nat,
      (List.range k).map (chunkAt p c) = chunkListAux k p c := by
  induction k with
  | zero => intro p c; simp [chunkListAux]
  | succ k ih =>
      intro p c
      rw [List.range_succ_eq_map]
      simp only [List.map_cons, List.map_map, chunkListAux]
      congr 1
      · simp [chunkAt]
      · rw [← ih (p.drop c) c]
        apply List.map_congr_left
        intro i _
        simp [Function.comp, chunkAt_succ]

theorem join_chunkListAux (k : Nat) :
    ∀ p : List Nat, ∀ c : Nat, (chunkListAux k p c).flatten = p.take (k * c) := by
  induction k with
  | zero => intro p c; simp [chunkListAux]
  | succ k ih =>
      intro p c
      simp only [chunkListAux, List.flatten_cons, ih (p.drop c) c]
      rw [Nat.succ_mul, Nat.add_comm (k * c) c, List.take_add]

theorem totalChunks_mul_ge (n c : Nat) (hc : 0 < c) :
    n ≤ totalChunks n c * c := by
  unfold totalChunks
  rw [Nat.mul_comm]
  have hmod := Nat.div_add_mod (n + c - 1) c
  have hlt : (n + c - 1) % c < c := Nat.mod_lt _ hc
  omega

theorem join_sendChunks (p : List Nat) (c : Nat) (hc : 0 < c) :
    (sendChunks p c).flatten = p := by
  unfold sendChunks
  rw [range_map_chunkAt, join_chunkListAux]
  exact List.take_of_length_le (totalChunks_mul_ge p.length c hc)

theorem totalChunks_minimal (n c k : Nat) (hc : 0 < c) (hk : n ≤ k * c) :
    totalChunks n c ≤ k := by
  unfold totalChunks
  have : n + c - 1 ≤ k * c + c - 1 := by omega
  calc (n + c - 1) / c ≤ (k * c + c - 1) / c := Nat.div_le_div_right this
    _ = (c - 1 + k * c) / c := by congr 1; omega
    _ = (c - 1) / c + k := by rw [Nat.add_mul_div_right _ _ hc]
    _ = k := by rw [Nat.div_eq_of_lt (by omega)]; omega

theorem chunkAt_length_of_not_last (p : List Nat) (c i : Nat) (hc : 0 < c)
    (hi : i + 1 < totalChunks p.length c) :
    (chunkAt p c i).length = c := by
  have hmul : (i + 1) * c = i * c + c := Nat.succ_mul i c
  have hip : i * c + c ≤ p.length := by
    by_contra hcon
    push_neg at hcon
    have hle : p.length ≤ (i + 1) * c := by omega
    have := totalChunks_minimal p.length c (i + 1) hc hle
    omega
  simp only [chunkAt, List.length_take, List.length_drop]
  omega

end Chunking

namespace Backpressure

theorem sendWithBackpressure_admits (chunkSize dataLen : Nat) :
    ∀ drainObs : List Nat, ∀ buffered post : Nat,
      sendWithBackpressure chunkSize dataLen true buffered drainObs = some post →
      ∃ admitted, admitted < maxBuffer chunkSize ∧ post = admitted + dataLen := by
  intro drainObs
  induction drainObs with
  | nil =>
      intro buffered post h
      rw [sendWithBackpressure] at h
      simp only [Bool.not_true, Bool.false_eq_true, if_false] at h
      by_cases hb : buffered < maxBuffer chunkSize
      · rw [if_pos hb] at h
        exact ⟨buffered, hb, (Option.some.injEq _ _ ▸ h).symm⟩
      · rw [if_neg hb] at h
        exact absurd h (by simp)
  | cons b rest ih =>
      intro buffered post h
      rw [sendWithBackpressure] at h
      simp only [Bool.not_true, Bool.false_eq_true, if_false] at h
      by_cases hb : buffered < maxBuffer chunkSize
      · rw [if_pos hb] at h
        exact ⟨buffered, hb, (Option.some.injEq _ _ ▸ h).symm⟩
      · rw [if_neg hb] at h
        exact ih b post h

end Backpressure

namespace ChunkStore

theorem get_storeChunk_same (s : Store) (fileId : String) (index : Nat)
    (data : List Nat) :
    get (storeChunkIndexedDB s fileId index data) (fileId, index) = some data := by
  simp [get, storeChunkIndexedDB, List.find?]

theorem storeChunk_idem (s : Store) (fileId : String) (index : Nat)
    (data : List Nat) :
    storeChunkIndexedDB (storeChunkIndexedDB s fileId index data) fileId index data
      = storeChunkIndexedDB s fileId index data := by
  simp only [storeChunkIndexedDB, List.filter_cons]
  rw [List.filter_filter]
  simp

end ChunkStore

namespace PullRetry

theorem runTimerFires_closed (n : Nat) :
    runTimerFires n = { pending := some 0, resends := n, errored := false } := by
  induction n with
  | zero => simp [runTimerFires, initialRequest]
  | succ n ih =>
      rw [runTimerFires, ih]
      simp [timerFire, CHUNK_REQUEST_MAX_RETRIES]

end PullRetry

namespace Rendezvous

theorem soloJoin_eq (A r p : String) (hr : r ≠ "") :
    soloJoin A r p =
      { rooms := [(r, { users := [A], passwordHash := hashPassword p })]
        currentRoom := some r
        emits := [.waitingForPeer A, .joinedRoom A r (some 1)] } := by
  unfold soloJoin handleJoinRoom leavePreviousRoom getRoom setRoom delRoom
  simp [hr]

theorem soloDupJoin_idempotent (A r p : String) (hr : r ≠ "") :
    soloDupJoin A r p = soloJoin A r p := by
  unfold soloDupJoin
  rw [soloJoin_eq A r p hr]
  unfold handleJoinRoom leavePreviousRoom getRoom setRoom delRoom
  simp [hr]

theorem pairJoin_eq (A B r p : String) (hr : r ≠ "") (hAB : A ≠ B) :
    pairJoin A B r p =
      { rooms := [(r, { users := [A, B], passwordHash := hashPassword p })]
        currentRoom := some r
        emits := [.userConnected A B, .joinedRoom A r (some 1),
                  .joinedRoom B r (some 2)] } := by
  unfold pairJoin
  rw [soloJoin_eq A r p hr]
  unfold handleJoinRoom leavePreviousRoom getRoom setRoom delRoom
  simp [hr, hAB, Ne.symm hAB]

theorem pairDupJoin_eq (A B r p : String) (hr : r ≠ "") (hAB : A ≠ B) :
    pairDupJoin A B r p =
      { rooms := [(r, { users := [B, A], passwordHash := hashPassword p })]
        currentRoom := some r
        emits := [.userConnected B A, .joinedRoom B r (some 1),
                  .joinedRoom A r (some 2)] } := by
  unfold pairDupJoin
  rw [pairJoin_eq A B r p hr hAB]
  unfold handleJoinRoom leavePreviousRoom getRoom setRoom delRoom
  simp [hr, hAB, Ne.symm hAB]

end Rendezvous

namespace Attribution

theorem handleBinaryFrame_preserves_fileMeta (st : RecvState) (buf : List Nat) :
    (handleBinaryFrame st buf).1.fileMeta = st.fileMeta := by
  unfold handleBinaryFrame
  match h : st.fileMeta.head? with
  | none => simp
  | some (fileId, m) => simp

theorem handleBinaryFrame_target (st : RecvState) (buf : List Nat)
    (fileId : String) (m : FileMeta) (h : st.fileMeta.head? = some (fileId, m)) :
    (handleBinaryFrame st buf).2 = some (fileId, lookupCount st.receivedCount fileId) := by
  unfold handleBinaryFrame
  rw [h]

theorem handleBinaryFrames_targets (fileId : String) (m : FileMeta) :
    ∀ bufs : List (List Nat), ∀ st : RecvState,
      st.fileMeta.head? = some (fileId, m) →
      ∀ w ∈ (handleBinaryFrames st bufs).2, w.1 = fileId := by
  intro bufs
  induction bufs with
  | nil => intro st _ w hw; simp [handleBinaryFrames] at hw
  | cons buf rest ih =>
      intro st hhead w hw
      have hpres := handleBinaryFrame_preserves_fileMeta st buf
      have htgt := handleBinaryFrame_target st buf fileId m hhead
      rw [handleBinaryFrames] at hw
      match hfr : handleBinaryFrame st buf with
      | (st1, none) =>
          rw [hfr] at htgt
          simp at htgt
      | (st1, some w0) =>
          rw [hfr] at htgt hpres hw
          simp only at htgt hpres
          dsimp only at hw
          have hst1 : st1.fileMeta.head? = some (fileId, m) := by rw [hpres, hhead]
          match hrec : handleBinaryFrames st1 rest with
          | (st2, ws) =>
              rw [hrec] at hw
              dsimp only at hw
              rcases List.mem_cons.mp hw with hw0 | hwrest
              · rw [hw0, Option.some.inj htgt]
              · have hrest := ih st1 hst1 w
                rw [hrec] at hrest
                exact hrest hwrest

end Attribution

/-! ## Claim theorems -/

namespace Claims

/-- C1: the claim states the receiver sends `transfer-complete-ack` only
after size and chunk-count validation both passed, and that no ack is
emitted when either fails.  The code violates this: the finalize block
calls `validateTransfer` but discards its result and sends the ack
whenever the file channel is open.  At the concrete failing input below
(declared size 10, declared chunks 3, three read-back chunks totalling 9
bytes, channel open) the validation fails because the assembled size is
9 ≠ 10, yet the ack is sent. -/
theorem c1_ack_sent_despite_failed_validation :
    (Validation.finalizeTransferIndexedDB 10 3 3
        [[1, 2, 3, 4], [5, 6, 7, 8], [9]] true).ackSent = true ∧
    Validation.validateTransfer 10 9 3 3 = false ∧
    (Validation.finalizeTransferIndexedDB 10 3 3
        [[1, 2, 3, 4], [5, 6, 7, 8], [9]] true).validationPassed = false := by
  refine ⟨rfl, rfl, rfl⟩

/-- C2: for every non-empty payload and positive chunk size, `sendFile`
produces exactly `ceil(size / chunkSize)` chunks, chunk `i` being the
payload slice `[i*chunkSize, i*chunkSize + chunkSize)`, every chunk but
possibly the last having full length, and the concatenation of the
chunks in index order being exactly the original payload. -/
theorem c2_sender_chunking_roundtrip (payload : List Nat) (chunkSize : Nat)
    (hs : 0 < payload.length) (hc : 0 < chunkSize) :
    (Chunking.sendChunks payload chunkSize).length
        = Chunking.totalChunks payload.length chunkSize ∧
    (∀ i, i < Chunking.totalChunks payload.length chunkSize →
      (Chunking.sendChunks payload chunkSize)[i]? =
        some ((payload.drop (i * chunkSize)).take chunkSize)) ∧
    (∀ i, i + 1 < Chunking.totalChunks payload.length chunkSize →
      (Chunking.chunkAt payload chunkSize i).length = chunkSize) ∧
    (Chunking.sendChunks payload chunkSize).flatten = payload := by
  refine ⟨?_, ?_, ?_, ?_⟩
  · simp [Chunking.sendChunks]
  · intro i hi
    simp [Chunking.sendChunks, Chunking.chunkAt, List.getElem?_range, hi]
  · intro i hi
    exact Chunking.chunkAt_length_of_not_last payload chunkSize i hc hi
  · exact Chunking.join_sendChunks payload chunkSize hc

/-- C2 witness: the specification scenario — a 10-byte payload with
chunk size 4 yields 3 chunks that reassemble to the payload. -/
theorem c2_witness :
    (Chunking.sendChunks [0, 1, 2, 3, 4, 5, 6, 7, 8, 9] 4).length
        = Chunking.totalChunks 10 4 ∧
    (Chunking.sendChunks [0, 1, 2, 3, 4, 5, 6, 7, 8, 9] 4).flatten
        = [0, 1, 2, 3, 4, 5, 6, 7, 8, 9] :=
  ⟨(c2_sender_chunking_roundtrip [0, 1, 2, 3, 4, 5, 6, 7, 8, 9] 4
      (by decide) (by decide)).1,
   (c2_sender_chunking_roundtrip [0, 1, 2, 3, 4, 5, 6, 7, 8, 9] 4
      (by decide) (by decide)).2.2.2⟩

/-- C3 counterexample: the claim states the buffered byte count never
exceeds the high-water mark (16 × chunkSize) immediately after a send
returns.  With chunk size 2 the mark is 32; a send admitted at buffered
amount 31 queues 2 more bytes and returns with the buffer at 33 > 32. -/
theorem c3_counterexample :
    Backpressure.sendWithBackpressure 2 2 true 31 [] = some 33 ∧
    ¬ 33 ≤ Backpressure.maxBuffer 2 := by
  refine ⟨rfl, by decide⟩

/-- C3 as amended: the admission check of `sendWithBackpressure` only
guarantees the buffer was strictly below the high-water mark when the
send was admitted, so immediately after the send returns the buffered
amount is below the mark plus the size of the data just queued (it can
exceed the mark itself by up to one chunk); and a send that finds the
buffer at or above the mark does not transmit until a
`bufferedamountlow` observation admits it. -/
theorem c3_amended_backpressure (chunkSize dataLen : Nat) :
    (∀ buffered post : Nat, ∀ drainObs : List Nat,
      Backpressure.sendWithBackpressure chunkSize dataLen true buffered drainObs
          = some post →
      post < Backpressure.maxBuffer chunkSize + dataLen) ∧
    (∀ buffered : Nat, Backpressure.maxBuffer chunkSize ≤ buffered →
      Backpressure.sendWithBackpressure chunkSize dataLen true buffered [] = none) := by
  constructor
  · intro buffered post drainObs h
    obtain ⟨admitted, hlt, hpost⟩ :=
      Backpressure.sendWithBackpressure_admits chunkSize dataLen drainObs buffered post h
    omega
  · intro buffered hb
    rw [Backpressure.sendWithBackpressure]
    simp only [Bool.not_true, Bool.false_eq_true, if_false]
    rw [if_neg (by omega)]

/-- C3 witness: with chunk size 2, the send admitted at buffered amount
31 returns with the buffer at 33 < 32 + 2, and a send finding the
buffer at 32 (the mark) does not transmit without a drain event. -/
theorem c3_witness :
    33 < Backpressure.maxBuffer 2 + 2 ∧
    Backpressure.sendWithBackpressure 2 2 true 32 [] = none :=
  ⟨(c3_amended_backpressure 2 2).1 31 33 [] rfl,
   (c3_amended_backpressure 2 2).2 32 (by decide)⟩

/-- C4 counterexample: the claim states `readAllChunksIndexedDB` returns
an ordered sequence whose positions correspond to chunk indices with
missing indices represented as holes.  The `src/services/indexedDB.js`
implementation compacts instead: with chunks stored at indices 0 and 2
only, it returns a two-element list whose position 1 holds chunk 2's
data — the missing index 1 is not represented. -/
theorem c4_counterexample :
    ChunkStore.readAllChunksIndexedDB
        (ChunkStore.storeChunkIndexedDB
          (ChunkStore.storeChunkIndexedDB [] "f" 0 [1, 2]) "f" 2 [5, 6]) "f"
      = [[1, 2], [5, 6]] ∧
    ChunkStore.get
        (ChunkStore.storeChunkIndexedDB
          (ChunkStore.storeChunkIndexedDB [] "f" 0 [1, 2]) "f" 2 [5, 6]) ("f", 1)
      = none ∧
    (ChunkStore.readAllChunksIndexedDB
        (ChunkStore.storeChunkIndexedDB
          (ChunkStore.storeChunkIndexedDB [] "f" 0 [1, 2]) "f" 2 [5, 6]) "f")[1]?
      = some [5, 6] := by
  refine ⟨by decide, by decide, by decide⟩

/-- C4 as amended: only the pull-variant `readAllChunksIndexedDB`
(part_005) returns the hole-preserving sequence — a list of length
`totalChunks` whose position `i` holds exactly the store content for
chunk index `i` (`none` marking a missing index); the
`src/services/indexedDB.js` variant compacts the holes away, as the
counterexample shows. -/
theorem c4_amended_pull_readback (s : ChunkStore.Store) (fileId : String)
    (totalChunks i : Nat) (hi : i < totalChunks) :
    (ChunkStore.readAllChunksIndexedDBPull s fileId totalChunks).length
        = totalChunks ∧
    (ChunkStore.readAllChunksIndexedDBPull s fileId totalChunks)[i]?
        = some (ChunkStore.get s (fileId, i)) := by
  constructor
  · simp [ChunkStore.readAllChunksIndexedDBPull]
  · simp [ChunkStore.readAllChunksIndexedDBPull, List.getElem?_range, hi]

/-- C4 witness: read-back of three declared chunks when only index 0 is
stored — position 1 is a hole, not a compacted-away slot. -/
theorem c4_witness :
    (ChunkStore.readAllChunksIndexedDBPull
        (ChunkStore.storeChunkIndexedDB [] "f" 0 [1, 2]) "f" 3).length = 3 ∧
    (ChunkStore.readAllChunksIndexedDBPull
        (ChunkStore.storeChunkIndexedDB [] "f" 0 [1, 2]) "f" 3)[1]?
      = some (ChunkStore.get (ChunkStore.storeChunkIndexedDB [] "f" 0 [1, 2]) ("f", 1)) :=
  c4_amended_pull_readback (ChunkStore.storeChunkIndexedDB [] "f" 0 [1, 2])
    "f" 3 1 (by decide)

/-- C5: re-delivering the same chunk (same key, same bytes) is
idempotent — the duplicated `put` leaves the store identical, hence the
read-back and the reassembled artifact are exactly those of a single
delivery; and the `put` is a last-write-wins upsert for its key. -/
theorem c5_duplicate_chunk_idempotent (s : ChunkStore.Store) (fileId : String)
    (index : Nat) (data : List Nat) (totalChunks : Nat) :
    ChunkStore.storeChunkIndexedDB
        (ChunkStore.storeChunkIndexedDB s fileId index data) fileId index data
      = ChunkStore.storeChunkIndexedDB s fileId index data ∧
    ChunkStore.readAllChunksIndexedDBPull
        (ChunkStore.storeChunkIndexedDB
          (ChunkStore.storeChunkIndexedDB s fileId index data) fileId index data)
        fileId totalChunks
      = ChunkStore.readAllChunksIndexedDBPull
          (ChunkStore.storeChunkIndexedDB s fileId index data) fileId totalChunks ∧
    ChunkStore.get (ChunkStore.storeChunkIndexedDB s fileId index data)
        (fileId, index) = some data ∧
    (∀ stale : List Nat,
      ChunkStore.get
          (ChunkStore.storeChunkIndexedDB
            (ChunkStore.storeChunkIndexedDB s fileId index stale) fileId index data)
          (fileId, index) = some data) := by
  refine ⟨ChunkStore.storeChunk_idem s fileId index data, ?_, ?_, ?_⟩
  · rw [ChunkStore.storeChunk_idem s fileId index data]
  · exact ChunkStore.get_storeChunk_same s fileId index data
  · intro stale
    exact ChunkStore.get_storeChunk_same _ fileId index data

/-- C6: in every `sendFile` run the completion report occurs only when
the `transfer-complete-ack` arrived within the timeout, and occurs in
the trace only immediately after the ack event; when no ack arrives the
run reports failure and never reports completion. -/
theorem c6_sent_only_after_ack (totalChunks : Nat) (ackArrived : Bool) :
    (AckWait.SenderEvent.reportedCompleted ∈ AckWait.sendFileTrace totalChunks ackArrived
        ↔ ackArrived = true) ∧
    (AckWait.SenderEvent.reportedFailed ∈ AckWait.sendFileTrace totalChunks ackArrived
        ↔ ackArrived = false) ∧
    (ackArrived = true →
      ∃ pre : List AckWait.SenderEvent,
        AckWait.sendFileTrace totalChunks ackArrived
            = pre ++ [AckWait.SenderEvent.ackReceived,
                      AckWait.SenderEvent.reportedCompleted] ∧
        AckWait.SenderEvent.ackReceived ∉ pre ∧
        AckWait.SenderEvent.reportedCompleted ∉ pre) := by
  refine ⟨?_, ?_, ?_⟩
  · cases ackArrived <;> simp [AckWait.sendFileTrace]
  · cases ackArrived <;> simp [AckWait.sendFileTrace]
  · intro ha
    subst ha
    refine ⟨AckWait.SenderEvent.metadataSent ::
      (List.range totalChunks).map AckWait.SenderEvent.chunkSent, ?_, ?_, ?_⟩
    · simp [AckWait.sendFileTrace]
    · simp
    · simp

/-- C6 witness: a three-chunk transfer whose ack arrived — the
completion report follows the ack event. -/
theorem c6_witness :
    ∃ pre : List AckWait.SenderEvent,
      AckWait.sendFileTrace 3 true
          = pre ++ [AckWait.SenderEvent.ackReceived,
                    AckWait.SenderEvent.reportedCompleted] ∧
      AckWait.SenderEvent.ackReceived ∉ pre ∧
      AckWait.SenderEvent.reportedCompleted ∉ pre :=
  (c6_sent_only_after_ack 3 true).2.2 rfl

/-- C7 counterexample: the claim states `peerConnected` becomes true
only when both sub-channels report open.  In the code the raw
transport's `connected` event alone sets it: from the initial state
(no channel open) the `connectionstatechange("connected")` handler
leaves both ready flags false yet sets `peerConnected`. -/
theorem c7_counterexample :
    (ConnState.onConnEvent ConnState.initConn
        (ConnState.ConnEvent.stateChange "connected")).peerConnected = true ∧
    (ConnState.onConnEvent ConnState.initConn
        (ConnState.ConnEvent.stateChange "connected")).chatReady = false ∧
    (ConnState.onConnEvent ConnState.initConn
        (ConnState.ConnEvent.stateChange "connected")).fileReady = false := by
  refine ⟨by decide, by decide, by decide⟩

/-- C7 as amended: the raw transport `connected` event sets
`peerConnected` irrespective of sub-channel state (leaving the two ready
flags unchanged); gating on sub-channel readiness happens at the action
level instead — the chat send is admitted only when the chat channel is
ready, and the file drop path only when the peer is connected and the
file channel is ready. -/
theorem c7_amended_gating (st : ConnState.UIConn) :
    (ConnState.onConnEvent st (ConnState.ConnEvent.stateChange "connected")).peerConnected
        = true ∧
    (ConnState.onConnEvent st (ConnState.ConnEvent.stateChange "connected")).chatReady
        = st.chatReady ∧
    (ConnState.onConnEvent st (ConnState.ConnEvent.stateChange "connected")).fileReady
        = st.fileReady ∧
    (∀ inputBlank : Bool, ConnState.sendMessageAllowed st inputBlank = true →
        st.chatReady = true) ∧
    (∀ isZipping : Bool, ConnState.dropSendAllowed st isZipping = true →
        st.peerConnected = true ∧ st.fileReady = true) := by
  refine ⟨?_, ?_, ?_, ?_, ?_⟩
  · simp [ConnState.onConnEvent]
  · simp [ConnState.onConnEvent]
  · simp [ConnState.onConnEvent]
  · intro inputBlank h
    simp only [ConnState.sendMessageAllowed, Bool.and_eq_true] at h
    exact h.2
  · intro isZipping h
    simp only [ConnState.dropSendAllowed, Bool.and_eq_true] at h
    exact ⟨h.1.1, h.1.2⟩

/-- C7 witness: at a fully-ready state the transport event keeps the
flags, and both action guards certify their channel flags. -/
theorem c7_witness :
    (ConnState.onConnEvent
        { peerConnected := true, chatReady := true, fileReady := true
          connectionState := "connecting", errorMsg := none }
        (ConnState.ConnEvent.stateChange "connected")).peerConnected = true ∧
    ({ peerConnected := true, chatReady := true, fileReady := true
       connectionState := "connecting", errorMsg := none } : ConnState.UIConn).chatReady
        = true ∧
    (({ peerConnected := true, chatReady := true, fileReady := true
        connectionState := "connecting", errorMsg := none } : ConnState.UIConn).peerConnected
        = true ∧
     ({ peerConnected := true, chatReady := true, fileReady := true
        connectionState := "connecting", errorMsg := none } : ConnState.UIConn).fileReady
        = true) :=
  ⟨(c7_amended_gating _).1,
   (c7_amended_gating _).2.2.2.1 false (by decide),
   (c7_amended_gating _).2.2.2.2 false (by decide)⟩

/-- C8 counterexample: the claim states a duplicate join from an
already-seated member returns the existing seat position and leaves the
member list unchanged.  With room "r" seated as ["A", "B"], a second
`join-room` from "A" first splices "A" out and then re-seats it: the
order becomes ["B", "A"], "A" is told position 2 (its existing position
was 1), and "B" receives a fresh `user-connected`. -/
theorem c8_counterexample :
    Rendezvous.getRoom (Rendezvous.pairJoin "A" "B" "r" "").rooms "r"
        = some { users := ["A", "B"], passwordHash := none } ∧
    Rendezvous.getRoom (Rendezvous.pairDupJoin "A" "B" "r" "").rooms "r"
        = some { users := ["B", "A"], passwordHash := none } ∧
    (Rendezvous.pairDupJoin "A" "B" "r" "").emits
        = [Rendezvous.Emit.userConnected "B" "A",
           Rendezvous.Emit.joinedRoom "B" "r" (some 1),
           Rendezvous.Emit.joinedRoom "A" "r" (some 2)] := by
  refine ⟨by decide, by decide, by decide⟩

/-- C8 as amended: a duplicate `join-room` from an already-seated member
is processed as leave-then-rejoin, not as an idempotent no-op.  When the
member is alone in the room the outcome happens to reproduce the
original state and position 1, so the duplicate join is idempotent in
that case; but when the room is full, the rejoining first member is
re-seated at position 2, the member order rotates to [other, rejoiner],
and the other member receives a fresh `user-connected` notification. -/
theorem c8_amended_duplicate_join (A B r p : String) (hr : r ≠ "") (hAB : A ≠ B) :
    Rendezvous.soloDupJoin A r p = Rendezvous.soloJoin A r p ∧
    Rendezvous.getRoom (Rendezvous.pairDupJoin A B r p).rooms r
        = some { users := [B, A], passwordHash := Rendezvous.hashPassword p } ∧
    (Rendezvous.pairDupJoin A B r p).emits
        = [Rendezvous.Emit.userConnected B A,
           Rendezvous.Emit.joinedRoom B r (some 1),
           Rendezvous.Emit.joinedRoom A r (some 2)] := by
  refine ⟨Rendezvous.soloDupJoin_idempotent A r p hr, ?_, ?_⟩
  · rw [Rendezvous.pairDupJoin_eq A B r p hr hAB]
    simp [Rendezvous.getRoom]
  · rw [Rendezvous.pairDupJoin_eq A B r p hr hAB]

/-- C8 witness: the concrete scenario of the counterexample, through the
amended theorem. -/
theorem c8_witness :
    Rendezvous.soloDupJoin "A" "r" "p" = Rendezvous.soloJoin "A" "r" "p" ∧
    Rendezvous.getRoom (Rendezvous.pairDupJoin "A" "B" "r" "p").rooms "r"
        = some { users := ["B", "A"], passwordHash := Rendezvous.hashPassword "p" } ∧
    (Rendezvous.pairDupJoin "A" "B" "r" "p").emits
        = [Rendezvous.Emit.userConnected "B" "A",
           Rendezvous.Emit.joinedRoom "B" "r" (some 1),
           Rendezvous.Emit.joinedRoom "A" "r" (some 2)] :=
  c8_amended_duplicate_join "A" "B" "r" "p" (by decide) (by decide)

/-- C9: the claim states each outstanding chunk request is retried at
most `CHUNK_REQUEST_MAX_RETRIES = 4` times and that after the bound is
exhausted the transfer is abandoned with an error surfaced.  The code
cannot reach that bound: `scheduleRetry` re-stores
`{ timeoutId, retries }` with the closure variable `retries` fixed at 0,
so the counter the give-up branch reads is 0 at every firing.  After `n`
unanswered timer firings the request has been re-sent `n` times —
unbounded, as the instance at `n = 10 > 4` shows — the entry is still
pending with a zero counter, and no error has been surfaced. -/
theorem c9_unbounded_chunk_retries (n : Nat) :
    (PullRetry.runTimerFires n).resends = n ∧
    (PullRetry.runTimerFires n).pending = some 0 ∧
    (PullRetry.runTimerFires n).errored = false ∧
    PullRetry.CHUNK_REQUEST_MAX_RETRIES = 4 ∧
    (PullRetry.runTimerFires 10).resends = 10 ∧
    (PullRetry.runTimerFires 10).errored = false := by
  rw [PullRetry.runTimerFires_closed, PullRetry.runTimerFires_closed]
  exact ⟨rfl, rfl, rfl, rfl, rfl, rfl⟩

/-- C10: a binary payload frame is attributed to the first key of the
metadata map.  With two transfers announced (first `fid1`, then `fid2`)
and neither finalized, the metadata map lists them in announcement
order, and every binary frame — whichever transfer its bytes belong
to — is written under `fid1`. -/
theorem c10_first_announced_gets_all_chunks (fid1 fid2 : String)
    (m1 m2 : Attribution.FileMeta) (bufs : List (List Nat)) (h : fid1 ≠ fid2) :
    (Attribution.announceMetadata
        (Attribution.announceMetadata Attribution.initialRecvState fid1 m1)
        fid2 m2).fileMeta = [(fid1, m1), (fid2, m2)] ∧
    (∀ w ∈ (Attribution.handleBinaryFrames
        (Attribution.announceMetadata
          (Attribution.announceMetadata Attribution.initialRecvState fid1 m1)
          fid2 m2) bufs).2, w.1 = fid1) := by
  have hmeta : (Attribution.announceMetadata
      (Attribution.announceMetadata Attribution.initialRecvState fid1 m1)
      fid2 m2).fileMeta = [(fid1, m1), (fid2, m2)] := by
    simp [Attribution.announceMetadata, Attribution.initialRecvState, h]
  refine ⟨hmeta, ?_⟩
  apply Attribution.handleBinaryFrames_targets fid1 m1 bufs
  rw [hmeta]
  rfl

/-- C10 witness: transfers "t1" then "t2" announced; two frames arrive;
both are written under "t1". -/
theorem c10_witness :
    (Attribution.announceMetadata
        (Attribution.announceMetadata Attribution.initialRecvState "t1"
          { name := "a.bin", size := 8, chunks := 2 })
        "t2" { name := "b.bin", size := 4, chunks := 1 }).fileMeta
      = [("t1", { name := "a.bin", size := 8, chunks := 2 }),
         ("t2", { name := "b.bin", size := 4, chunks := 1 })] ∧
    (∀ w ∈ (Attribution.handleBinaryFrames
        (Attribution.announceMetadata
          (Attribution.announceMetadata Attribution.initialRecvState "t1"
            { name := "a.bin", size := 8, chunks := 2 })
          "t2" { name := "b.bin", size := 4, chunks := 1 })
        [[1, 2, 3, 4], [5, 6, 7, 8]]).2, w.1 = "t1") :=
  c10_first_announced_gets_all_chunks "t1" "t2"
    { name := "a.bin", size := 8, chunks := 2 }
    { name := "b.bin", size := 4, chunks := 1 }
    [[1, 2, 3, 4], [5, 6, 7, 8]] (by decide)

end Claims

end Plink
